import Mathlib

/-!
Shallow embedding of the task-orchestration core of the `viber` repository:
`AgentCoordinator` (src/unnamed/part_005) and `BaseAgent`
(src/src/agents/BaseAgent.js), together with the registry bookkeeping and the
two implemented workflows.  Agent-internal AI calls are opaque: each workflow
stage invocation is parameterised by an oracle `call : String → Except String
Unit` giving the outcome of that stage's underlying method, and the registry
of successfully initialised agents is a list of names.
-/

set_option linter.unusedVariables false

deriving instance DecidableEq for Except

namespace Viber

/-- Truthiness of the `requirements` fields consulted by the create-project
workflow guards (`requirements.database`, `requirements.backend`,
`requirements.frontend`). -/
structure Requirements where
  database : Bool
  backend  : Bool
  frontend : Bool
deriving Repr, DecidableEq

/-- A task submission payload as consumed by `AgentCoordinator.executeTask`:
`type`, `description` (the empty string models a missing/empty JS field, which
is falsy), and the requirements object. -/
structure TaskRequest where
  type : String
  description : String
  requirements : Requirements
deriving Repr, DecidableEq

/-- Task status values.  The spec enumerates Pending, Running, Completed,
Failed; the source assigns only the strings 'pending' (part_005:134),
'completed' (part_005:148) and 'failed' (part_005:163). -/
inductive TaskStatus
  | pending
  | running
  | completed
  | failed
deriving Repr, DecidableEq

/-- The distinct throw sites of the coordinator, one constructor per distinct
error raised in part_005:
* `invalidRequest` — 'Invalid task request' (line 121);
* `missingAgent` — 'Debug agent not available' (line 276);
* `unsupportedTaskType` — 'Unsupported task type: ...' (line 201);
* `methodUndefined m` — the TypeError raised by JavaScript when the
  dispatcher calls the method `m` that is defined nowhere in the class
  (lines 192, 195, 198);
* `agentFailure` — an error propagated out of a stage's agent invocation. -/
inductive CoordError
  | invalidRequest
  | missingAgent
  | unsupportedTaskType (t : String)
  | methodUndefined (m : String)
  | agentFailure (msg : String)
deriving Repr, DecidableEq

/-- Events emitted by the coordinator on a task's behalf:
`taskProgress` (part_005:218 etc.), `taskCompleted` (152), `taskFailed`
(168). -/
inductive CoordEvent
  | taskProgress (p : Nat)
  | taskCompleted
  | taskFailed (e : CoordError)
deriving Repr, DecidableEq

/-- The mutable state of a `BaseAgent` instance relevant to task gating:
`busy` and `currentTask` (BaseAgent.js:19-20). -/
structure AgentState where
  busy : Bool
  currentTask : Option String
deriving Repr, DecidableEq

/-- Errors surfaced by `BaseAgent.executeTask`: `agentBusy` is the
'... agent is currently busy' throw (BaseAgent.js:116); `processFailed`
re-raises the failure of `processTask` (BaseAgent.js:148). -/
inductive AgentError
  | agentBusy
  | processFailed (msg : String)
deriving Repr, DecidableEq

/-- Events a `BaseAgent` emits to the coordinator:
'agentTaskCompleted' (BaseAgent.js:131) and 'agentError'
(BaseAgent.js:142), both carrying the agent's computed `name`. -/
inductive AgentEvent
  | taskCompleted (agentName : String)
  | agentErr (agentName : String) (msg : String)
deriving Repr, DecidableEq

/-! ### Validation and workflow selection (part_005) -/

/-- `AgentCoordinator.validateTaskRequest` (part_005:318-330): returns false
iff `taskRequest.type` or `taskRequest.description` is falsy (here: empty). -/
def validateTaskRequest (req : TaskRequest) : Bool :=
  !req.type.isEmpty && !req.description.isEmpty

/-- The task types with a case in `executeTaskWorkflow` (part_005:184-199),
equally the keys of `determineRequiredAgents`'s `agentMap`
(part_005:304-310). -/
def knownTaskTypes : List String :=
  ["create_project", "debug_code", "review_code", "optimize_performance",
   "deploy_application"]

/-- One stage of the create-project workflow: the context key it writes, the
registry name of the agent it invokes, the progress checkpoint it sets, and
the requirements part of its guard. -/
structure Stage where
  key : String
  agent : String
  checkpoint : Nat
  needsReq : Requirements → Bool

/-- The five guarded stages of `executeCreateProjectWorkflow`
(part_005:212-255), in source order with the source's checkpoints. -/
def createStages : List Stage :=
  [ ⟨"architecture", "architect", 20, fun _ => true⟩,
    ⟨"database", "database", 35, fun r => r.database⟩,
    ⟨"backend", "backend", 60, fun r => r.backend⟩,
    ⟨"frontend", "frontend", 85, fun r => r.frontend⟩,
    ⟨"testing", "tester", 95, fun _ => true⟩ ]

/-- A stage runs iff its requirements guard holds and its agent is in the
coordinator's agent map (`this.agents.has(...)`). -/
def stageGuard (agents : List String) (req : Requirements) (s : Stage) : Bool :=
  s.needsReq req && agents.contains s.agent

/-- The workflow-visible slice of the task record: `task.progress`, the keys
of the accumulated `context` object in insertion order, and the values of the
`taskProgress` events emitted so far. -/
structure WfState where
  progress : Nat
  contextKeys : List String
  progressEvents : List Nat
deriving Repr, DecidableEq

/-- A workflow stage invocation: the coordinator calls the agent's
specialised method directly (`designArchitecture`, `designSchema`,
`createProject`, `setupTesting`, `analyzeCode`, `generateFixes`); none of
these methods reads or writes the agent's `busy` flag, so the invocation's
outcome is just the underlying call's outcome, independent of the agent's
state. -/
def invokeAgentMethod (ag : AgentState) (outcome : Except String Unit) :
    Except String Unit :=
  outcome

/-- Run a list of guarded stages (the body of `executeCreateProjectWorkflow`,
part_005:212-255): a passing stage invokes its agent, and on success merges
its key into the context, sets `task.progress` to the checkpoint and emits a
progress event; a throwing stage aborts the workflow with the task record as
it was before that stage's mutations. -/
def runStages (agents : List String) (ags : String → AgentState)
    (req : Requirements) (call : String → Except String Unit) :
    List Stage → WfState → WfState × Option CoordError
  | [], st => (st, none)
  | s :: rest, st =>
    if stageGuard agents req s then
      match invokeAgentMethod (ags s.agent) (call s.key) with
      | .error m => (st, some (.agentFailure m))
      | .ok _ =>
        runStages agents ags req call rest
          ⟨s.checkpoint, st.contextKeys ++ [s.key],
           st.progressEvents ++ [s.checkpoint]⟩
    else
      runStages agents ags req call rest st

/-- `AgentCoordinator.executeCreateProjectWorkflow` (part_005:208-267): the
context starts with the keys `projectId` and `requirements`
(part_005:210), the five guarded stages run in order, and on reaching the end
`task.progress` is set to 100 and a final progress event is emitted
(part_005:257-258); the remaining result assembly is total.  Returns the
final workflow state and `none` on success, or the error that aborted it. -/
def executeCreateProjectWorkflow (agents : List String)
    (ags : String → AgentState) (req : Requirements)
    (call : String → Except String Unit) : WfState × Option CoordError :=
  match runStages agents ags req call createStages
      ⟨0, ["projectId", "requirements"], []⟩ with
  | (st, some e) => (st, some e)
  | (st, none) =>
    (⟨100, st.contextKeys, st.progressEvents ++ [100]⟩, none)

/-- `AgentCoordinator.executeDebugWorkflow` (part_005:272-298): throws
'Debug agent not available' if `debugger` is not in the agent map, otherwise
runs `analyzeCode` (checkpoint 50) then `generateFixes` (checkpoint 100);
`getRecommendations` after the final checkpoint is a total computation over
the already-built analysis. -/
def executeDebugWorkflow (agents : List String) (ags : String → AgentState)
    (call : String → Except String Unit) : WfState × Option CoordError :=
  if agents.contains "debugger" then
    match invokeAgentMethod (ags "debugger") (call "analysis") with
    | .error m => (⟨0, [], []⟩, some (.agentFailure m))
    | .ok _ =>
      match invokeAgentMethod (ags "debugger") (call "fixes") with
      | .error m => (⟨50, [], [50]⟩, some (.agentFailure m))
      | .ok _ => (⟨100, [], [50, 100]⟩, none)
  else
    (⟨0, [], []⟩, some .missingAgent)

/-- `AgentCoordinator.executeTaskWorkflow` (part_005:181-203): dispatch on
`task.type`.  The cases `review_code`, `optimize_performance` and
`deploy_application` call `executeCodeReviewWorkflow`,
`executeOptimizationWorkflow` and `executeDeploymentWorkflow`, none of which
is defined anywhere in the class, so those calls raise a TypeError. -/
def executeTaskWorkflow (agents : List String) (ags : String → AgentState)
    (req : TaskRequest) (call : String → Except String Unit) :
    WfState × Option CoordError :=
  if req.type = "create_project" then
    executeCreateProjectWorkflow agents ags req.requirements call
  else if req.type = "debug_code" then
    executeDebugWorkflow agents ags call
  else if req.type = "review_code" then
    (⟨0, [], []⟩, some (.methodUndefined "executeCodeReviewWorkflow"))
  else if req.type = "optimize_performance" then
    (⟨0, [], []⟩, some (.methodUndefined "executeOptimizationWorkflow"))
  else if req.type = "deploy_application" then
    (⟨0, [], []⟩, some (.methodUndefined "executeDeploymentWorkflow"))
  else
    (⟨0, [], []⟩, some (.unsupportedTaskType req.type))

/-- The observable outcome of one `AgentCoordinator.executeTask` call
(part_005:113-176): whether a task record was created and inserted into
`runningTasks`, the sequence of task-record snapshots `(status, progress)`
taken after each mutation of the record, the coordinator events emitted, and
the returned/thrown outcome. -/
structure ExecResult where
  taskCreated : Bool
  snapshots : List (TaskStatus × Nat)
  events : List CoordEvent
  outcome : Except CoordError Unit
deriving Repr, DecidableEq

/-- `AgentCoordinator.executeTask` (part_005:113-176).  The `taskTimeout`
parameter is the constructor's `this.taskTimeout` field (part_005:34); no
statement of the class reads it.  On validation failure the function throws
before the task object is built (line 120 precedes line 128), the catch
block's `runningTasks.has(taskId)` is false, and a `taskFailed` event is
still emitted (line 168).  Otherwise the task record is created with status
'pending' and progress 0, inserted into `runningTasks`, and the workflow
runs; on success the status becomes 'completed', on a thrown error
'failed'.  No statement ever assigns the status 'running'. -/
def executeTask (taskTimeout : Nat) (agents : List String)
    (ags : String → AgentState) (req : TaskRequest)
    (call : String → Except String Unit) : ExecResult :=
  if validateTaskRequest req then
    match executeTaskWorkflow agents ags req call with
    | (st, none) =>
      { taskCreated := true
        snapshots := (TaskStatus.pending, 0) ::
          st.progressEvents.map (fun p => (TaskStatus.pending, p)) ++
          [(TaskStatus.completed, st.progress)]
        events := st.progressEvents.map CoordEvent.taskProgress ++
          [CoordEvent.taskCompleted]
        outcome := .ok () }
    | (st, some e) =>
      { taskCreated := true
        snapshots := (TaskStatus.pending, 0) ::
          st.progressEvents.map (fun p => (TaskStatus.pending, p)) ++
          [(TaskStatus.failed, st.progress)]
        events := st.progressEvents.map CoordEvent.taskProgress ++
          [CoordEvent.taskFailed e]
        outcome := .error e }
  else
    { taskCreated := false
      snapshots := []
      events := [CoordEvent.taskFailed .invalidRequest]
      outcome := .error .invalidRequest }

/-! ### Coordinator shared state: running-task map size and task queue -/

/-- The shared coordinator state touched by admission and queue processing:
the size of the `runningTasks` map, the `taskQueue` array and the
`maxConcurrentTasks` cap (part_005:27-33). -/
structure CoordState where
  runningTasks : Nat
  taskQueue : List TaskRequest
  maxConcurrentTasks : Nat
deriving Repr, DecidableEq

/-- The effect of one `executeTask` call on the shared coordinator state
(part_005:113-176): after validation succeeds, the new task record is
inserted into `runningTasks` unconditionally — there is no comparison with
`maxConcurrentTasks` and no statement of `executeTask` (or of any other
method) appends to `taskQueue`.  The record leaves `runningTasks` only via
the 60-second cleanup timer (part_005:172-174). -/
def submitEffect (s : CoordState) (req : TaskRequest) : CoordState :=
  if validateTaskRequest req then
    { s with runningTasks := s.runningTasks + 1 }
  else
    s

/-- `AgentCoordinator.processTaskQueue` (part_005:395-406): returns without
effect when the queue is empty or `runningTasks.size ≥ maxConcurrentTasks`;
otherwise shifts the oldest queued request and feeds it to `executeTask`. -/
def processTaskQueue (s : CoordState) : CoordState :=
  if s.taskQueue.length = 0 ∨ s.maxConcurrentTasks ≤ s.runningTasks then
    s
  else
    match s.taskQueue with
    | [] => s
    | t :: rest => submitEffect { s with taskQueue := rest } t

/-! ### BaseAgent (src/src/agents/BaseAgent.js) -/

/-- `BaseAgent.executeTask` (BaseAgent.js:114-153): if the agent is busy it
throws '... agent is currently busy' without emitting anything; otherwise
it sets `busy`/`currentTask`, runs `processTask` (outcome `process`), emits
'agentTaskCompleted' on success or 'agentError' on failure (re-raising the
error), and the finally block resets `busy := false`, `currentTask := null`
in every case.  Returns the final agent state, the events emitted to the
coordinator, and the call's outcome. -/
def BaseAgent.executeTask (name : String) (st : AgentState) (taskId : String)
    (process : Except String Unit) :
    AgentState × List AgentEvent × Except AgentError Unit :=
  if st.busy then
    (st, [], .error .agentBusy)
  else
    match process with
    | .ok r => (⟨false, none⟩, [.taskCompleted name], .ok r)
    | .error m => (⟨false, none⟩, [.agentErr name m], .error (.processFailed m))

/-- JavaScript `String.prototype.replace` with a plain-string pattern
replaces only the first occurrence; with replacement '' this is: drop the
first occurrence of `pat`. -/
def replaceFirstEmpty (pat : List Char) : List Char → List Char
  | [] => []
  | c :: cs =>
    if pat.isPrefixOf (c :: cs) then
      (c :: cs).drop pat.length
    else
      c :: replaceFirstEmpty pat cs

/-- `this.constructor.name.replace('Agent', '').toLowerCase()`
(BaseAgent.js:9): the `name` a BaseAgent computes from its class name. -/
def baseAgentName (className : String) : String :=
  ⟨(replaceFirstEmpty "Agent".toList className.toList).map Char.toLower⟩

/-- Per-agent bookkeeping kept by the coordinator's agent map
(part_005:94-101). -/
structure RegistryEntry where
  status : String
  currentTask : Option String
  completedTasks : Nat
  errors : List String
deriving Repr, DecidableEq

/-- The coordinator's registry: registry key and agent class name, in the
order of `initializeAgents`'s `agentClasses` table (part_005:73-82). -/
def registryAgents : List (String × String) :=
  [("architect", "ProjectArchitectAgent"),
   ("frontend", "FrontendDeveloperAgent"),
   ("backend", "BackendDeveloperAgent"),
   ("database", "DatabaseDesignerAgent"),
   ("devops", "DevOpsAgent"),
   ("tester", "QATestingAgent"),
   ("debugger", "DebugDetectiveAgent"),
   ("reviewer", "CodeReviewerAgent")]

/-- The agent map right after all eight agents initialise successfully
(part_005:94-101): status 'ready', no current task, zero completed tasks,
empty error list. -/
def freshRegistry : List (String × RegistryEntry) :=
  registryAgents.map (fun p => (p.1, ⟨"ready", none, 0, []⟩))

/-- The 'agentTaskCompleted' handler of `setupEventHandlers`
(part_005:371-380): if `agents.has(agentName)` then increment that entry's
`completedTasks`, clear `currentTask` and set status 'ready'; otherwise do
nothing. -/
def onAgentTaskCompleted (reg : List (String × RegistryEntry))
    (agentName : String) : List (String × RegistryEntry) :=
  if (reg.map Prod.fst).contains agentName then
    reg.map (fun p =>
      if p.1 = agentName then
        (p.1, { p.2 with completedTasks := p.2.completedTasks + 1,
                         currentTask := none, status := "ready" })
      else p)
  else reg

/-- The 'agentError' handler of `setupEventHandlers` (part_005:358-369): if
`agents.has(agentName)` then push the error onto that entry's `errors`
array; otherwise do nothing. -/
def onAgentError (reg : List (String × RegistryEntry))
    (agentName : String) (msg : String) : List (String × RegistryEntry) :=
  if (reg.map Prod.fst).contains agentName then
    reg.map (fun p =>
      if p.1 = agentName then (p.1, { p.2 with errors := p.2.errors ++ [msg] })
      else p)
  else reg

/-- Apply one agent event to the registry, as the coordinator's event
handlers do. -/
def applyAgentEvent (reg : List (String × RegistryEntry)) :
    AgentEvent → List (String × RegistryEntry)
  | .taskCompleted n => onAgentTaskCompleted reg n
  | .agentErr n m => onAgentError reg n m

/-- One `BaseAgent.executeTask` round trip together with the coordinator's
registry bookkeeping triggered by the emitted events.  `className` is the
agent's JavaScript class name, from which the emitted `agentName` is
computed. -/
def agentExecuteWithBookkeeping (className : String)
    (reg : List (String × RegistryEntry)) (st : AgentState) (taskId : String)
    (process : Except String Unit) :
    List (String × RegistryEntry) × AgentState × Except AgentError Unit :=
  match BaseAgent.executeTask (baseAgentName className) st taskId process with
  | (st', evs, out) => (evs.foldl applyAgentEvent reg, st', out)

/-- Look up a registry entry's completed-task counter. -/
def lookupCompleted (reg : List (String × RegistryEntry)) (k : String) :
    Option Nat :=
  (reg.lookup k).map RegistryEntry.completedTasks

/-! ### Concrete fixtures used by witnesses and counterexamples -/

/-- Requirements with every optional stage requested. -/
def fullReq : Requirements := ⟨true, true, true⟩

/-- Requirements with no optional stage requested. -/
def emptyReq : Requirements := ⟨false, false, false⟩

/-- All eight registry names available. -/
def allAgents : List String :=
  ["architect", "frontend", "backend", "database", "devops", "tester",
   "debugger", "reviewer"]

/-- Every agent idle. -/
def readyAgents : String → AgentState := fun _ => ⟨false, none⟩

/-- Every agent busy. -/
def busyAgents : String → AgentState := fun _ => ⟨true, some "t0"⟩

/-- A stage-call oracle on which every agent invocation succeeds. -/
def happyCall : String → Except String Unit := fun _ => .ok ()

/-! ### Helper lemmas about `runStages` -/

/-- The last element of a list, or the default when the list is empty
(foldl form, so that the cons equation holds definitionally). -/
def lastD (d : Nat) (l : List Nat) : Nat :=
  l.foldl (fun _ x => x) d

theorem lastD_nil (d : Nat) : lastD d [] = d := rfl

theorem lastD_cons (d a : Nat) (l : List Nat) : lastD d (a :: l) = lastD a l :=
  rfl

/-- Reduction: a guarded stage whose invocation fails aborts the run with
the pre-stage state. -/
theorem runStages_cons_err (agents : List String) (ags : String → AgentState)
    (req : Requirements) (call : String → Except String Unit) (s : Stage)
    (rest : List Stage) (st : WfState) (m : String)
    (hg : stageGuard agents req s = true) (hc : call s.key = .error m) :
    runStages agents ags req call (s :: rest) st =
      (st, some (.agentFailure m)) := by
  simp [runStages, hg, invokeAgentMethod, hc]

/-- Reduction: a guarded stage whose invocation succeeds merges its key,
sets the checkpoint, emits the progress event and continues. -/
theorem runStages_cons_ok (agents : List String) (ags : String → AgentState)
    (req : Requirements) (call : String → Except String Unit) (s : Stage)
    (rest : List Stage) (st : WfState) (u : Unit)
    (hg : stageGuard agents req s = true) (hc : call s.key = .ok u) :
    runStages agents ags req call (s :: rest) st =
      runStages agents ags req call rest
        ⟨s.checkpoint, st.contextKeys ++ [s.key],
         st.progressEvents ++ [s.checkpoint]⟩ := by
  simp [runStages, hg, invokeAgentMethod, hc]

/-- Reduction: a stage whose guard fails is skipped without any effect. -/
theorem runStages_cons_skip (agents : List String) (ags : String → AgentState)
    (req : Requirements) (call : String → Except String Unit) (s : Stage)
    (rest : List Stage) (st : WfState)
    (hg : ¬stageGuard agents req s = true) :
    runStages agents ags req call (s :: rest) st =
      runStages agents ags req call rest st := by
  simp [runStages, hg]

/-- When every stage invocation succeeds, `runStages` never fails, appends
exactly the guarded stages' keys to the context and their checkpoints to the
progress events, and ends at the last executed checkpoint. -/
theorem runStages_all_ok (agents : List String) (ags : String → AgentState)
    (req : Requirements) (call : String → Except String Unit)
    (hok : ∀ k, call k = .ok ()) :
    ∀ (stages : List Stage) (st : WfState),
      runStages agents ags req call stages st =
        (⟨lastD st.progress
            ((stages.filter (stageGuard agents req)).map Stage.checkpoint),
          st.contextKeys ++ (stages.filter (stageGuard agents req)).map Stage.key,
          st.progressEvents ++
            (stages.filter (stageGuard agents req)).map Stage.checkpoint⟩,
         none) := by
  intro stages
  induction stages with
  | nil => intro st; simp [runStages, lastD_nil]
  | cons s rest ih =>
    intro st
    by_cases hg : stageGuard agents req s = true
    · rw [runStages_cons_ok agents ags req call s rest st () hg (hok s.key),
        ih, List.filter_cons_of_pos hg, List.map_cons, List.map_cons,
        lastD_cons]
      simp [List.append_assoc]
    · rw [runStages_cons_skip agents ags req call s rest st hg, ih,
        List.filter_cons_of_neg hg]

/-- `runStages` never reads the agents' mutable state: the stage methods it
invokes do not consult the busy flag. -/
theorem runStages_ags_irrel (agents : List String)
    (ags₁ ags₂ : String → AgentState) (req : Requirements)
    (call : String → Except String Unit) :
    ∀ (stages : List Stage) (st : WfState),
      runStages agents ags₁ req call stages st =
        runStages agents ags₂ req call stages st := by
  intro stages
  induction stages with
  | nil => intro st; rfl
  | cons s rest ih =>
    intro st
    by_cases hg : stageGuard agents req s = true
    · cases hc : call s.key <;>
        simp [runStages, hg, invokeAgentMethod, hc, ih]
    · simp [runStages, hg, ih]

/-- Appending a dominating element preserves a non-decreasing chain. -/
theorem chain_append_le {l : List Nat} {p : Nat}
    (h1 : List.Chain' (· ≤ ·) l) (h2 : ∀ x ∈ l, x ≤ p) :
    List.Chain' (· ≤ ·) (l ++ [p]) := by
  rw [List.chain'_append]
  refine ⟨h1, List.chain'_singleton p, ?_⟩
  intro x hx y hy
  simp only [List.head?_cons, Option.mem_def, Option.some.injEq] at hy
  subst hy
  obtain ⟨hne, hxe⟩ := List.mem_getLast?_eq_getLast hx
  have hxl : x ∈ l := by
    rw [hxe]
    exact List.getLast_mem hne
  exact h2 x hxl

/-- Monotonicity invariant of `runStages`: starting from a state whose
emitted events form a non-decreasing chain bounded by the current progress,
and stage checkpoints that are pairwise non-decreasing and above the current
progress, the run preserves the chain and the bound, never decreases
progress, and ends at the initial progress or at one of the checkpoints. -/
theorem runStages_inv (agents : List String) (ags : String → AgentState)
    (req : Requirements) (call : String → Except String Unit) :
    ∀ (stages : List Stage) (st : WfState),
      List.Chain' (· ≤ ·) st.progressEvents →
      (∀ x ∈ st.progressEvents, x ≤ st.progress) →
      List.Pairwise (· ≤ ·) (st.progress :: stages.map Stage.checkpoint) →
      List.Chain' (· ≤ ·)
          (runStages agents ags req call stages st).1.progressEvents ∧
        (∀ x ∈ (runStages agents ags req call stages st).1.progressEvents,
            x ≤ (runStages agents ags req call stages st).1.progress) ∧
        st.progress ≤ (runStages agents ags req call stages st).1.progress ∧
        ((runStages agents ags req call stages st).1.progress = st.progress ∨
          (runStages agents ags req call stages st).1.progress ∈
            stages.map Stage.checkpoint) := by
  intro stages
  induction stages with
  | nil =>
    intro st h1 h2 hp
    exact ⟨h1, h2, le_refl _, Or.inl rfl⟩
  | cons s rest ih =>
    intro st h1 h2 hp
    rw [List.map_cons, List.pairwise_cons] at hp
    obtain ⟨hhead, htail⟩ := hp
    rw [List.pairwise_cons] at htail
    obtain ⟨hcphead, hcptail⟩ := htail
    by_cases hg : stageGuard agents req s = true
    · cases hc : call s.key with
      | error m =>
        rw [runStages_cons_err agents ags req call s rest st m hg hc]
        exact ⟨h1, h2, le_refl _, Or.inl rfl⟩
      | ok u =>
        have hle : st.progress ≤ s.checkpoint :=
          hhead s.checkpoint (List.mem_cons_self _ _)
        have h2' : ∀ x ∈ st.progressEvents, x ≤ s.checkpoint :=
          fun x hx => (h2 x hx).trans hle
        have h1' : List.Chain' (· ≤ ·) (st.progressEvents ++ [s.checkpoint]) :=
          chain_append_le h1 h2'
        have h2'' : ∀ x ∈ st.progressEvents ++ [s.checkpoint],
            x ≤ s.checkpoint := by
          intro x hx
          rcases List.mem_append.mp hx with hx | hx
          · exact h2' x hx
          · simp only [List.mem_singleton] at hx
            exact hx.le
        have hp' : List.Pairwise (· ≤ ·)
            (s.checkpoint :: rest.map Stage.checkpoint) :=
          List.pairwise_cons.mpr ⟨hcphead, hcptail⟩
        have key := ih ⟨s.checkpoint, st.contextKeys ++ [s.key],
          st.progressEvents ++ [s.checkpoint]⟩ h1' h2'' hp'
        rw [runStages_cons_ok agents ags req call s rest st u hg hc]
        refine ⟨key.1, key.2.1, hle.trans key.2.2.1, Or.inr ?_⟩
        rw [List.map_cons]
        rcases key.2.2.2 with h | h
        · rw [h]
          exact List.mem_cons_self _ _
        · exact List.mem_cons_of_mem _ h
    · have hp' : List.Pairwise (· ≤ ·)
          (st.progress :: rest.map Stage.checkpoint) :=
        List.pairwise_cons.mpr
          ⟨fun b hb => hhead b (List.mem_cons_of_mem _ hb), hcptail⟩
      have key := ih st h1 h2 hp'
      rw [runStages_cons_skip agents ags req call s rest st hg]
      refine ⟨key.1, key.2.1, key.2.2.1, ?_⟩
      rcases key.2.2.2 with h | h
      · exact Or.inl h
      · exact Or.inr (by rw [List.map_cons]; exact List.mem_cons_of_mem _ h)

/-- Prepending 0 and appending a dominating element to a bounded chain. -/
theorem chain_zero_cons_append {l : List Nat} {p : Nat}
    (h1 : List.Chain' (· ≤ ·) l) (h2 : ∀ x ∈ l, x ≤ p) :
    List.Chain' (· ≤ ·) (0 :: (l ++ [p])) :=
  List.chain'_cons'.mpr ⟨fun y _ => Nat.zero_le y, chain_append_le h1 h2⟩

/-- Facts about any workflow dispatch: the emitted progress events form a
non-decreasing chain bounded by the final progress; a successful workflow
ends at progress 100 and a failed one strictly below 100. -/
theorem workflow_facts (agents : List String) (ags : String → AgentState)
    (req : TaskRequest) (call : String → Except String Unit) :
    List.Chain' (· ≤ ·)
        (executeTaskWorkflow agents ags req call).1.progressEvents ∧
      (∀ x ∈ (executeTaskWorkflow agents ags req call).1.progressEvents,
          x ≤ (executeTaskWorkflow agents ags req call).1.progress) ∧
      ((executeTaskWorkflow agents ags req call).2 = none →
        (executeTaskWorkflow agents ags req call).1.progress = 100) ∧
      ((executeTaskWorkflow agents ags req call).2 ≠ none →
        (executeTaskWorkflow agents ags req call).1.progress < 100) := by
  unfold executeTaskWorkflow
  split_ifs with hcp hdb hrv hop hdp
  · -- create_project
    unfold executeCreateProjectWorkflow
    have hinv := runStages_inv agents ags req.requirements call createStages
      ⟨0, ["projectId", "requirements"], []⟩ (List.chain'_nil)
      (by intro x hx; simp at hx) (by decide)
    rcases hr : runStages agents ags req.requirements call createStages
        ⟨0, ["projectId", "requirements"], []⟩ with ⟨st, err⟩
    rw [hr] at hinv
    dsimp only at hinv
    have hbound : st.progress ≤ 95 := by
      rcases hinv.2.2.2 with h | h
      · omega
      · simp [createStages] at h
        omega
    cases err with
    | none =>
      dsimp only
      refine ⟨?_, ?_, fun _ => rfl, fun h => absurd rfl h⟩
      · exact chain_append_le hinv.1
          (fun x hx => le_trans (hinv.2.1 x hx) (by omega))
      · intro x hx
        rcases List.mem_append.mp hx with hx | hx
        · exact le_trans (hinv.2.1 x hx) (by omega)
        · simp at hx
          omega
    | some e =>
      dsimp only
      exact ⟨hinv.1, hinv.2.1, by intro h; simp at h, fun _ => by omega⟩
  · -- debug_code
    unfold executeDebugWorkflow
    split_ifs with hdbg
    · cases h1 : call "analysis" with
      | error m =>
        dsimp only [invokeAgentMethod]
        exact ⟨List.chain'_nil, by intro x hx; simp at hx,
          by intro h; simp at h, fun _ => by decide⟩
      | ok u =>
        cases h2 : call "fixes" with
        | error m =>
          dsimp only [invokeAgentMethod]
          exact ⟨List.chain'_singleton 50, by intro x hx; simp at hx; omega,
            by intro h; simp at h, fun _ => by decide⟩
        | ok v =>
          dsimp only [invokeAgentMethod]
          exact ⟨by norm_num [List.chain'_cons], by decide, fun _ => rfl,
            fun h => absurd rfl h⟩
    · dsimp only
      exact ⟨List.chain'_nil, by intro x hx; simp at hx,
        by intro h; simp at h, fun _ => by decide⟩
  · dsimp only
    exact ⟨List.chain'_nil, by intro x hx; simp at hx,
      by intro h; simp at h, fun _ => by decide⟩
  · dsimp only
    exact ⟨List.chain'_nil, by intro x hx; simp at hx,
      by intro h; simp at h, fun _ => by decide⟩
  · dsimp only
    exact ⟨List.chain'_nil, by intro x hx; simp at hx,
      by intro h; simp at h, fun _ => by decide⟩
  · dsimp only
    exact ⟨List.chain'_nil, by intro x hx; simp at hx,
      by intro h; simp at h, fun _ => by decide⟩

/-- The workflow dispatch never reads the agents' mutable state. -/
theorem executeTaskWorkflow_ags_irrel (agents : List String)
    (ags₁ ags₂ : String → AgentState) (req : TaskRequest)
    (call : String → Except String Unit) :
    executeTaskWorkflow agents ags₁ req call =
      executeTaskWorkflow agents ags₂ req call := by
  unfold executeTaskWorkflow executeCreateProjectWorkflow executeDebugWorkflow
  simp only [invokeAgentMethod]
  rw [runStages_ags_irrel agents ags₁ ags₂ req.requirements call createStages]

/-- The coordinator's whole task execution never reads the agents' mutable
state. -/
theorem executeTask_ags_irrel (taskTimeout : Nat) (agents : List String)
    (ags₁ ags₂ : String → AgentState) (req : TaskRequest)
    (call : String → Except String Unit) :
    executeTask taskTimeout agents ags₁ req call =
      executeTask taskTimeout agents ags₂ req call := by
  unfold executeTask
  rw [executeTaskWorkflow_ags_irrel agents ags₁ ags₂ req call]

/-! ### Claim theorems -/

/-- Claim C1.  The claim states that a submitted task starts immediately only
when the running count is below `maxConcurrentTasks`, that otherwise it is
appended to the task queue, and that `runningTasks ≤ maxConcurrent` always
holds.  The code violates this: `executeTask` inserts every validated
submission into `runningTasks` without consulting the cap, and no statement
anywhere appends to `taskQueue`.  Starting at the cap (`maxConcurrentTasks =
1` with one running task is reached after one submission), a second valid
submission makes `runningTasks = 2 > 1` while the queue stays empty; and in
general a submission never changes the queue. -/
theorem runningTasks_cap_violated :
    (submitEffect (submitEffect ⟨0, [], 1⟩ ⟨"create_project", "x", emptyReq⟩)
        ⟨"create_project", "x", emptyReq⟩).runningTasks = 2 ∧
    ¬(submitEffect (submitEffect ⟨0, [], 1⟩ ⟨"create_project", "x", emptyReq⟩)
        ⟨"create_project", "x", emptyReq⟩).runningTasks ≤ 1 ∧
    (submitEffect (submitEffect ⟨0, [], 1⟩ ⟨"create_project", "x", emptyReq⟩)
        ⟨"create_project", "x", emptyReq⟩).taskQueue = [] ∧
    ∀ (s : CoordState) (r : TaskRequest),
      (submitEffect s r).taskQueue = s.taskQueue := by
  refine ⟨by decide, by decide, by decide, ?_⟩
  intro s r
  unfold submitEffect
  split <;> rfl

/-- Claim C2.  The claim states that a task whose workflow has not reached a
terminal status within `taskTimeoutMs` is marked Failed with `TimeoutError`.
The code has no such path: the constructor's `taskTimeout` field
(part_005:34) is never read again, so the entire observable behaviour of
`executeTask` — task creation, every snapshot, every event and the outcome —
is independent of its value, and no timeout error exists among the
coordinator's throw sites (`CoordError` enumerates them all). -/
theorem executeTask_independent_of_taskTimeout (t₁ t₂ : Nat)
    (agents : List String) (ags : String → AgentState) (req : TaskRequest)
    (call : String → Except String Unit) :
    executeTask t₁ agents ags req call = executeTask t₂ agents ags req call :=
  rfl

/-- Claim C3.  For every task of kind `review_code`, `optimize_performance`
or `deploy_application`, execution always fails: the dispatcher calls
`executeCodeReviewWorkflow`, `executeOptimizationWorkflow` or
`executeDeploymentWorkflow`, which are defined nowhere in the class, so the
call raises and the task can never complete successfully, whatever the
agents, their states, the request details or the stage outcomes. -/
theorem unimplemented_workflows_never_succeed (taskTimeout : Nat)
    (agents : List String) (ags : String → AgentState) (req : TaskRequest)
    (call : String → Except String Unit)
    (h : req.type = "review_code" ∨ req.type = "optimize_performance" ∨
      req.type = "deploy_application") :
    (executeTask taskTimeout agents ags req call).outcome ≠ .ok () := by
  unfold executeTask
  split
  · rcases h with h | h | h <;> simp [executeTaskWorkflow, h]
  · simp

/-- Witness for C3 at a concrete input: a valid `review_code` request with
all agents available and every stage call succeeding still fails. -/
theorem unimplemented_workflows_never_succeed_witness :
    (executeTask 0 allAgents readyAgents ⟨"review_code", "x", emptyReq⟩
        happyCall).outcome ≠ .ok () :=
  unimplemented_workflows_never_succeed 0 allAgents readyAgents
    ⟨"review_code", "x", emptyReq⟩ happyCall (Or.inl rfl)

/-- Counterexample to claim C4.  The claim states that admission validation
rejects exactly the requests whose kind is unknown or whose description is
empty, and that a rejected submission never creates a task and no terminal
task event refers to it.  In the code: a request with the unknown kind
"bogus" and non-empty description passes `validateTaskRequest` and does
create a task record, and a rejected submission (empty `type`) still causes
a terminal `taskFailed` event to be emitted with the allocated task id. -/
theorem validation_admits_unknown_kind :
    validateTaskRequest ⟨"bogus", "x", emptyReq⟩ = true ∧
    "bogus" ∉ knownTaskTypes ∧
    (executeTask 0 allAgents readyAgents ⟨"bogus", "x", emptyReq⟩
        happyCall).taskCreated = true ∧
    (executeTask 0 allAgents readyAgents ⟨"", "x", emptyReq⟩ happyCall).events =
      [CoordEvent.taskFailed .invalidRequest] := by
  decide

/-- Claim C4 as amended.  `validateTaskRequest` rejects exactly the requests
with an empty (missing) `type` or `description`; a rejected submission
creates no task record, takes no snapshot and fails synchronously with the
invalid-request error, but a terminal `taskFailed` event for the allocated
task id is still emitted; a request whose non-empty kind is unknown is
admitted (a task record is created) and fails later with the
unsupported-task-type error. -/
theorem validation_and_admission_amended (taskTimeout : Nat)
    (agents : List String) (ags : String → AgentState) (req : TaskRequest)
    (call : String → Except String Unit) :
    (validateTaskRequest req = false ↔
      (req.type = "" ∨ req.description = "")) ∧
    (validateTaskRequest req = false →
      (executeTask taskTimeout agents ags req call).taskCreated = false ∧
      (executeTask taskTimeout agents ags req call).snapshots = [] ∧
      (executeTask taskTimeout agents ags req call).events =
        [CoordEvent.taskFailed .invalidRequest] ∧
      (executeTask taskTimeout agents ags req call).outcome =
        .error .invalidRequest) ∧
    (validateTaskRequest req = true → req.type ∉ knownTaskTypes →
      (executeTask taskTimeout agents ags req call).taskCreated = true ∧
      (executeTask taskTimeout agents ags req call).outcome =
        .error (.unsupportedTaskType req.type)) := by
  refine ⟨?_, ?_, ?_⟩
  · cases ht : req.type.isEmpty <;> cases hd : req.description.isEmpty <;>
      simp_all [validateTaskRequest, String.isEmpty_iff]
    exact ⟨fun he => absurd (he ▸ ht) (by decide),
      fun he => absurd (he ▸ hd) (by decide)⟩
  · intro h
    simp [executeTask, h]
  · intro hv hk
    simp only [knownTaskTypes, List.mem_cons, List.not_mem_nil, or_false,
      not_or] at hk
    obtain ⟨h1, h2, h3, h4, h5⟩ := hk
    simp [executeTask, hv, executeTaskWorkflow, h1, h2, h3, h4, h5]

/-- Witness for the amended C4 at a concrete input: the unknown kind "bogus"
with a non-empty description is admitted and fails with the
unsupported-task-type error. -/
theorem validation_and_admission_amended_witness :
    (executeTask 0 allAgents readyAgents ⟨"bogus", "x", emptyReq⟩
        happyCall).taskCreated = true ∧
    (executeTask 0 allAgents readyAgents ⟨"bogus", "x", emptyReq⟩
        happyCall).outcome = .error (.unsupportedTaskType "bogus") :=
  (validation_and_admission_amended 0 allAgents readyAgents
    ⟨"bogus", "x", emptyReq⟩ happyCall).2.2 (by decide) (by decide)

/-- Claim C5.  A workflow whose mandatory stage names an unavailable agent
(an agent absent from the coordinator's map, whether it failed to initialise
or was never registered) terminates by failing with the missing-agent error:
the debug workflow's `debugger` stage is the mandatory case, and the
function returns the error immediately, so it cannot hang.  An unavailable
agent guarding a non-mandatory stage (all five create-project stages) only
causes that stage to be skipped: with every performed invocation succeeding,
the create-project workflow completes for every agent set. -/
theorem mandatory_missing_agent_fails_optional_skipped
    (agents : List String) (ags : String → AgentState) (req : Requirements)
    (call : String → Except String Unit)
    (hdbg : agents.contains "debugger" = false)
    (hok : ∀ k, call k = .ok ()) :
    executeDebugWorkflow agents ags call =
      (⟨0, [], []⟩, some .missingAgent) ∧
    (executeCreateProjectWorkflow agents ags req call).2 = none := by
  constructor
  · unfold executeDebugWorkflow
    rw [hdbg]
    simp
  · simp [executeCreateProjectWorkflow,
      runStages_all_ok agents ags req call hok]

/-- Witness for C5 at a concrete input: only `architect` is registered, so
the debug workflow fails with the missing-agent error while the
create-project workflow still completes. -/
theorem mandatory_missing_agent_fails_optional_skipped_witness :
    executeDebugWorkflow ["architect"] readyAgents happyCall =
      (⟨0, [], []⟩, some .missingAgent) ∧
    (executeCreateProjectWorkflow ["architect"] readyAgents emptyReq
        happyCall).2 = none :=
  mandatory_missing_agent_fails_optional_skipped ["architect"] readyAgents
    emptyReq happyCall (by decide) (fun k => rfl)

/-- Counterexample to claim C6.  The claim states that every workflow stage
invocation of an agent is gated by the agent's busy state.  In the code only
`BaseAgent.executeTask` checks `busy`; the workflows invoke the agents'
specialised methods directly, which never consult it: with the `architect`
agent busy, `BaseAgent.executeTask` fails fast with the busy error, yet the
create-project workflow still invokes the architecture stage successfully
(its key is merged) and completes. -/
theorem busy_agent_stage_invocation_not_gated :
    (BaseAgent.executeTask "projectarchitect" ⟨true, some "t0"⟩ "t1"
        (.ok ())).2.2 = .error .agentBusy ∧
    (executeCreateProjectWorkflow ["architect"] busyAgents emptyReq
        happyCall).2 = none ∧
    "architecture" ∈ (executeCreateProjectWorkflow ["architect"] busyAgents
        emptyReq happyCall).1.contextKeys := by
  decide

/-- Claim C6 as amended.  An agent that is already busy and receives another
task assignment through `BaseAgent.executeTask` fails fast with the
agent-busy error; but workflow stage invocations bypass that gate entirely —
they call the agents' specialised methods, which neither read nor set
`busy` — so the coordinator's task execution is independent of every agent's
busy state and a busy agent does not block, nor is blocked by, any
workflow stage. -/
theorem busy_gate_only_in_base_executeTask (name : String) (st : AgentState)
    (tid : String) (process : Except String Unit) (hb : st.busy = true)
    (taskTimeout : Nat) (agents : List String)
    (ags₁ ags₂ : String → AgentState) (req : TaskRequest)
    (call : String → Except String Unit) :
    BaseAgent.executeTask name st tid process = (st, [], .error .agentBusy) ∧
    executeTask taskTimeout agents ags₁ req call =
      executeTask taskTimeout agents ags₂ req call := by
  constructor
  · simp [BaseAgent.executeTask, hb]
  · exact executeTask_ags_irrel taskTimeout agents ags₁ ags₂ req call

/-- Witness for the amended C6 at a concrete input: a busy architect fails
fast in `BaseAgent.executeTask`, and execution of a create-project task is
the same whether every agent is busy or every agent is idle. -/
theorem busy_gate_only_in_base_executeTask_witness :
    BaseAgent.executeTask "projectarchitect" ⟨true, some "t0"⟩ "t1" (.ok ()) =
      (⟨true, some "t0"⟩, [], .error .agentBusy) ∧
    executeTask 0 allAgents busyAgents ⟨"create_project", "x", fullReq⟩
        happyCall =
      executeTask 0 allAgents readyAgents ⟨"create_project", "x", fullReq⟩
        happyCall :=
  busy_gate_only_in_base_executeTask "projectarchitect" ⟨true, some "t0"⟩
    "t1" (.ok ()) rfl 0 allAgents busyAgents readyAgents
    ⟨"create_project", "x", fullReq⟩ happyCall

/-- Counterexample to claim C7.  The claim states that a task's progress
equals 100 if and only if its status is Completed.  In the code the workflow
sets `task.progress = 100` and emits the final progress event while
`task.status` is still 'pending'; only after the workflow's promise resolves
does `executeTask` set 'completed', so the task record observably holds
progress 100 with a non-Completed status. -/
theorem progress_100_while_pending :
    (TaskStatus.pending, 100) ∈ (executeTask 0 allAgents readyAgents
        ⟨"create_project", "x", fullReq⟩ happyCall).snapshots ∧
    TaskStatus.pending ≠ TaskStatus.completed := by
  decide

/-- Claim C7 as amended.  For every admitted task, the task-record snapshots
have monotonically non-decreasing progress (so every emitted progress event
carries a value at least as large as the previous one), and in the terminal
snapshot progress equals 100 if and only if the status is Completed; the
equivalence holds only terminally, since progress reaches 100 while the
status is still Pending just before completion is recorded. -/
theorem progress_monotone_and_terminal_iff (taskTimeout : Nat)
    (agents : List String) (ags : String → AgentState) (req : TaskRequest)
    (call : String → Except String Unit)
    (hv : validateTaskRequest req = true) :
    List.Chain' (fun a b => a.2 ≤ b.2)
      (executeTask taskTimeout agents ags req call).snapshots ∧
    ∀ s p, (executeTask taskTimeout agents ags req call).snapshots.getLast? =
        some (s, p) → (s = TaskStatus.completed ↔ p = 100) := by
  have hf := workflow_facts agents ags req call
  unfold executeTask
  rw [hv, if_pos rfl]
  rcases hw : executeTaskWorkflow agents ags req call with ⟨st, err⟩
  rw [hw] at hf
  dsimp only at hf
  cases err with
  | none =>
    dsimp only
    have hp100 : st.progress = 100 := hf.2.2.1 rfl
    constructor
    · refine (List.chain'_map Prod.snd).mp ?_
      have hmap : ((TaskStatus.pending, 0) ::
          List.map (fun p => (TaskStatus.pending, p)) st.progressEvents ++
            [(TaskStatus.completed, st.progress)]).map Prod.snd =
          0 :: st.progressEvents ++ [st.progress] := by
        simp [List.map_map, Function.comp]
      rw [hmap, List.cons_append]
      exact chain_zero_cons_append hf.1 hf.2.1
    · intro s p hsp
      rw [List.getLast?_concat] at hsp
      simp only [Option.some.injEq, Prod.mk.injEq] at hsp
      obtain ⟨hs, hp⟩ := hsp
      subst hs
      subst hp
      simp [hp100]
  | some e =>
    dsimp only
    have hlt : st.progress < 100 := hf.2.2.2 (by simp)
    constructor
    · refine (List.chain'_map Prod.snd).mp ?_
      have hmap : ((TaskStatus.pending, 0) ::
          List.map (fun p => (TaskStatus.pending, p)) st.progressEvents ++
            [(TaskStatus.failed, st.progress)]).map Prod.snd =
          0 :: st.progressEvents ++ [st.progress] := by
        simp [List.map_map, Function.comp]
      rw [hmap, List.cons_append]
      exact chain_zero_cons_append hf.1 hf.2.1
    · intro s p hsp
      rw [List.getLast?_concat] at hsp
      simp only [Option.some.injEq, Prod.mk.injEq] at hsp
      obtain ⟨hs, hp⟩ := hsp
      subst hs
      subst hp
      constructor
      · intro h
        exact absurd h (by simp)
      · intro h
        omega

/-- Witness for the amended C7 at a concrete input: a valid debug task with
all agents available and successful stage calls. -/
theorem progress_monotone_and_terminal_iff_witness :
    List.Chain' (fun a b => a.2 ≤ b.2)
      (executeTask 0 allAgents readyAgents ⟨"debug_code", "x", emptyReq⟩
        happyCall).snapshots ∧
    ∀ s p, (executeTask 0 allAgents readyAgents ⟨"debug_code", "x", emptyReq⟩
        happyCall).snapshots.getLast? = some (s, p) →
      (s = TaskStatus.completed ↔ p = 100) :=
  progress_monotone_and_terminal_iff 0 allAgents readyAgents
    ⟨"debug_code", "x", emptyReq⟩ happyCall (by decide)

/-- Counterexample to claim C8.  The claim states that every task passes
through the Running status before reaching a terminal status.  In the code
no statement ever assigns 'running': a concrete create-project task reaches
Completed while Running never appears among its recorded statuses. -/
theorem completed_without_running_status :
    TaskStatus.running ∉ ((executeTask 0 allAgents readyAgents
        ⟨"create_project", "x", fullReq⟩ happyCall).snapshots.map Prod.fst) ∧
    TaskStatus.completed ∈ ((executeTask 0 allAgents readyAgents
        ⟨"create_project", "x", fullReq⟩ happyCall).snapshots.map Prod.fst) := by
  decide

/-- Claim C8 as amended.  For every admitted task the recorded status
sequence is some number of Pending snapshots followed by exactly one
terminal snapshot (Completed or Failed): the task moves directly from
Pending to a terminal status, never revisits Pending, never moves backward,
and never holds the Running status. -/
theorem status_pending_to_terminal_only (taskTimeout : Nat)
    (agents : List String) (ags : String → AgentState) (req : TaskRequest)
    (call : String → Except String Unit)
    (hv : validateTaskRequest req = true) :
    (∃ n t, (t = TaskStatus.completed ∨ t = TaskStatus.failed) ∧
      (executeTask taskTimeout agents ags req call).snapshots.map Prod.fst =
        List.replicate n TaskStatus.pending ++ [t]) ∧
    TaskStatus.running ∉
      (executeTask taskTimeout agents ags req call).snapshots.map Prod.fst := by
  unfold executeTask
  rw [hv, if_pos rfl]
  rcases hw : executeTaskWorkflow agents ags req call with ⟨st, err⟩
  cases err with
  | none =>
    dsimp only
    have hmap : ((TaskStatus.pending, 0) ::
        List.map (fun p => (TaskStatus.pending, p)) st.progressEvents ++
          [(TaskStatus.completed, st.progress)]).map Prod.fst =
        List.replicate (st.progressEvents.length + 1) TaskStatus.pending ++
          [TaskStatus.completed] := by
      simp [List.map_map, Function.comp, List.replicate_succ, List.map_const']
    rw [hmap]
    constructor
    · exact ⟨st.progressEvents.length + 1, TaskStatus.completed, Or.inl rfl, rfl⟩
    · simp [List.mem_replicate]
  | some e =>
    dsimp only
    have hmap : ((TaskStatus.pending, 0) ::
        List.map (fun p => (TaskStatus.pending, p)) st.progressEvents ++
          [(TaskStatus.failed, st.progress)]).map Prod.fst =
        List.replicate (st.progressEvents.length + 1) TaskStatus.pending ++
          [TaskStatus.failed] := by
      simp [List.map_map, Function.comp, List.replicate_succ, List.map_const']
    rw [hmap]
    constructor
    · exact ⟨st.progressEvents.length + 1, TaskStatus.failed, Or.inr rfl, rfl⟩
    · simp [List.mem_replicate]

/-- Witness for the amended C8 at a concrete input: a valid debug task with
all agents available and successful stage calls. -/
theorem status_pending_to_terminal_only_witness :
    (∃ n t, (t = TaskStatus.completed ∨ t = TaskStatus.failed) ∧
      (executeTask 0 allAgents readyAgents ⟨"debug_code", "x", emptyReq⟩
        happyCall).snapshots.map Prod.fst =
        List.replicate n TaskStatus.pending ++ [t]) ∧
    TaskStatus.running ∉
      (executeTask 0 allAgents readyAgents ⟨"debug_code", "x", emptyReq⟩
        happyCall).snapshots.map Prod.fst :=
  status_pending_to_terminal_only 0 allAgents readyAgents
    ⟨"debug_code", "x", emptyReq⟩ happyCall (by decide)

/-- Claim C9.  The claim states that a successful `BaseAgent.executeTask`
increments the agent's completed-task counter and a failed one appends to
its error log (both returning the agent to the ready state, re-raising
failures).  The bookkeeping never happens for the `reviewer` agent: the
emitted agent name is computed as 'codereviewer' from the class name
`CodeReviewerAgent`, which is not a key of the coordinator's agent map, so
both handlers find `agents.has(agentName)` false and the registry is left
unchanged — the counter stays 0 after a success and the error list stays
empty after a failure (the busy flag does reset and the error is
re-raised).  The name computed from `DevOpsAgent` is 'devops', which does
match, showing the handlers work exactly when the names agree. -/
theorem completed_counter_never_increments_mismatched_name :
    baseAgentName "CodeReviewerAgent" = "codereviewer" ∧
    (freshRegistry.map Prod.fst).contains (baseAgentName "CodeReviewerAgent") =
      false ∧
    agentExecuteWithBookkeeping "CodeReviewerAgent" freshRegistry
        ⟨false, none⟩ "t1" (.ok ()) = (freshRegistry, ⟨false, none⟩, .ok ()) ∧
    lookupCompleted (agentExecuteWithBookkeeping "CodeReviewerAgent"
        freshRegistry ⟨false, none⟩ "t1" (.ok ())).1 "reviewer" = some 0 ∧
    agentExecuteWithBookkeeping "CodeReviewerAgent" freshRegistry
        ⟨false, none⟩ "t1" (.error "boom") =
      (freshRegistry, ⟨false, none⟩, .error (.processFailed "boom")) ∧
    lookupCompleted (agentExecuteWithBookkeeping "DevOpsAgent" freshRegistry
        ⟨false, none⟩ "t1" (.ok ())).1 "devops" = some 1 := by
  decide

/-- Counterexample to claim C10.  The claim states that the context keys
after workflow completion exactly match the stage keys whose guards held.
In the code the context is created as `{ projectId, requirements }` before
any stage runs: with no agents available the create-project workflow
completes with zero executed stages, yet the context still holds the two
initial keys. -/
theorem context_keys_exceed_executed_stages :
    (executeCreateProjectWorkflow [] readyAgents emptyReq happyCall).2 =
      none ∧
    (createStages.filter (stageGuard [] emptyReq)).map Stage.key = [] ∧
    (executeCreateProjectWorkflow [] readyAgents emptyReq
        happyCall).1.contextKeys = ["projectId", "requirements"] := by
  decide

/-- Claim C10 as amended.  For every completing create-project workflow run,
the context keys are exactly `projectId` and `requirements` (present from
task creation) followed, in declared stage order, by exactly the stage keys
whose guards evaluated true during the run. -/
theorem context_keys_eq_initial_plus_executed (agents : List String)
    (ags : String → AgentState) (req : Requirements)
    (call : String → Except String Unit) (hok : ∀ k, call k = .ok ()) :
    (executeCreateProjectWorkflow agents ags req call).1.contextKeys =
      "projectId" :: "requirements" ::
        (createStages.filter (stageGuard agents req)).map Stage.key := by
  simp [executeCreateProjectWorkflow,
    runStages_all_ok agents ags req call hok]

/-- Witness for the amended C10 at a concrete input: all agents available
and all requirements requested execute all five stages. -/
theorem context_keys_eq_initial_plus_executed_witness :
    (executeCreateProjectWorkflow allAgents readyAgents fullReq
        happyCall).1.contextKeys =
      "projectId" :: "requirements" ::
        (createStages.filter (stageGuard allAgents fullReq)).map Stage.key :=
  context_keys_eq_initial_plus_executed allAgents readyAgents fullReq
    happyCall (fun k => rfl)

end Viber
